import Mathlib

/-!
Verification of the typed API declaration and dispatch core of the
`effect-http` example (src/src/index.ts), against its design specification.

The repository declares an `HttpApi` with one group `Greetings` holding nine
endpoints, and a `GreetingsLive` implementation registering one handler per
endpoint.  The schema/validation/dispatch machinery itself lives in the
imported `@effect/platform` framework, so it is modelled here from the
specification's component contracts (sections 3, 4.1, 4.2, 4.3, 4.4); the
endpoint declarations, schemas, handlers and their wiring are transcribed from
`src/src/index.ts`.
-/

namespace EffectHttp

/-- Wire/typed values.  JavaScript numbers are modelled as integers (the
example only ever uses integral values); `dateTime` is a UTC timestamp in
epoch milliseconds; `file` is a multipart persisted file (name, content type,
byte length).  `undef` is JavaScript's `undefined`. -/
inductive Value where
  | str : String → Value
  | num : Int → Value
  | dateTime : Int → Value
  | undef : Value
  | arr : List Value → Value
  | obj : List (String × Value) → Value
  | file : String → String → Nat → Value
deriving Repr

mutual
/-- Modelled from the spec: "Schema: a typed description of an acceptable
shape (primitive, struct, array, optional, union) plus bidirectional
conversion rules".  The constructors cover exactly the schema combinators the
example uses: `Schema.String`, `Schema.NonEmptyTrimmedString`,
`Schema.Number`, `Schema.NumberFromString`, `Schema.DateTimeUtc`,
`Schema.UndefinedOr`, `Schema.Array`, `Schema.Struct` and
`Multipart.FilesSchema`'s file elements.  The ISO wire form of
`DateTimeUtc` is abstracted to the decimal rendering of the millisecond
timestamp (the spec fixes only that encode/decode are mutually inverse
conversion rules, not the concrete date syntax). -/
inductive Schema where
  | string : Schema
  | nonEmptyTrimmedString : Schema
  | number : Schema
  | numberFromString : Schema
  | dateTimeUtc : Schema
  | undefinedOr : Schema → Schema
  | array : Schema → Schema
  | struct : Fields → Schema
  | file : Schema

inductive Fields where
  | nil : Fields
  | cons : String → Schema → Fields → Fields
end

/-- Decimal digit to character. -/
def digitChar (d : Nat) : Char := Char.ofNat (48 + d)

/-- Character to decimal digit value, when it is one. -/
def isDigitChar (c : Char) : Bool := 48 ≤ c.toNat && c.toNat ≤ 57

def charVal (c : Char) : Nat := c.toNat - 48

/-- Little-endian decimal digits of a natural number; `fuel` bounds the
recursion depth and is always instantiated with the number itself. -/
def toDigitsRev (fuel n : Nat) : List Nat :=
  match fuel with
  | 0 => []
  | fuel + 1 => if n = 0 then [] else n % 10 :: toDigitsRev fuel (n / 10)

/-- Value of a little-endian list of decimal digits. -/
def fromDigitsRev : List Nat → Nat
  | [] => 0
  | d :: ds => d + 10 * fromDigitsRev ds

/-- Decimal rendering of a natural number (big-endian digit characters). -/
def natToString (n : Nat) : String :=
  if n = 0 then "0" else String.mk (((toDigitsRev n n).map digitChar).reverse)

/-- Parse a big-endian list of decimal digit characters. -/
def parseNatList (cs : List Char) : Option Nat :=
  if cs = [] then none
  else if cs.all isDigitChar then some (fromDigitsRev ((cs.map charVal).reverse))
  else none

/-- Parse a decimal natural number. -/
def parseNat (s : String) : Option Nat := parseNatList s.data

/-- Strip leading and trailing whitespace (the model of JavaScript's
`String.prototype.trim`, used by `Schema.NonEmptyTrimmedString`). -/
def trimString (s : String) : String :=
  String.mk (((s.data.dropWhile Char.isWhitespace).reverse.dropWhile
    Char.isWhitespace).reverse)

/-- Decimal rendering of an integer. -/
def intToString (i : Int) : String :=
  if i < 0 then String.mk ('-' :: (natToString i.natAbs).data)
  else natToString i.toNat

/-- Parse a decimal integer (optional leading minus sign). -/
def parseInt (s : String) : Option Int :=
  if s.data.head? = some '-' then (parseNatList s.data.tail).map (fun n => -(n : Int))
  else (parseNatList s.data).map Int.ofNat
/-- Validation errors: a decode failure names the offending field and the
expected type (spec 4.1: "failure yields a ValidationError naming the
offending field and the expected type"). -/
inductive DecodeError where
  | typeMismatch : String → Value → DecodeError
  | missingField : String → String → DecodeError
  | fieldError : String → DecodeError → DecodeError
deriving Repr

/-- Encoding errors (spec 4.1: `encode` returns a `Result`). -/
inductive EncodeError where
  | notConforming : String → Value → EncodeError
deriving Repr

/-- Human-readable description of the expected shape, used in errors. -/
def describe : Schema → String
  | .string => "String"
  | .nonEmptyTrimmedString => "NonEmptyTrimmedString"
  | .number => "Number"
  | .numberFromString => "NumberFromString"
  | .dateTimeUtc => "DateTimeUtc"
  | .undefinedOr _ => "UndefinedOr"
  | .array _ => "Array"
  | .struct _ => "Struct"
  | .file => "File"

/-- Whether a missing struct field is tolerated: exactly the
`Schema.UndefinedOr` fields (decoding a missing optional field yields
`undefined`). -/
def isOptional : Schema → Bool
  | .undefinedOr _ => true
  | _ => false

def Value.isUndef : Value → Bool
  | .undef => true
  | _ => false

/-- First-match lookup of a field by name in a raw object. -/
def lookupField (f : String) : List (String × Value) → Option Value
  | [] => none
  | (g, v) :: rest => if g = f then some v else lookupField f rest

/-- Effectful map over a list, failing on the first error. -/
def mapMExcept (f : α → Except ε β) : List α → Except ε (List β)
  | [] => .ok []
  | a :: as => do pure ((← f a) :: (← mapMExcept f as))

/-- Whether every element of a list satisfies a predicate. -/
def allList (p : α → Bool) : List α → Bool
  | [] => true
  | a :: as => p a && allList p as

mutual
/-- Modelled from the spec:
`decode(schema, rawValue) -> Result<TypedValue, ValidationError>` (4.1).
Struct fields must be present unless optional; unknown fields are ignored;
coercion schemas (`NumberFromString`, `DateTimeUtc`) parse their string
form; `UndefinedOr` accepts `undefined` or a value of the inner schema. -/
def decode : Schema → Value → Except DecodeError Value
  | .string => fun v =>
    match v with
    | .str s => .ok (.str s)
    | _ => .error (.typeMismatch "String" v)
  | .nonEmptyTrimmedString => fun v =>
    match v with
    | .str s =>
      if trimString s = s ∧ s ≠ "" then .ok (.str s)
      else .error (.typeMismatch "NonEmptyTrimmedString" v)
    | _ => .error (.typeMismatch "NonEmptyTrimmedString" v)
  | .number => fun v =>
    match v with
    | .num n => .ok (.num n)
    | _ => .error (.typeMismatch "Number" v)
  | .numberFromString => fun v =>
    match v with
    | .str s =>
      match parseInt s with
      | some n => .ok (.num n)
      | none => .error (.typeMismatch "NumberFromString" v)
    | _ => .error (.typeMismatch "NumberFromString" v)
  | .dateTimeUtc => fun v =>
    match v with
    | .str s =>
      match parseInt s with
      | some m => .ok (.dateTime m)
      | none => .error (.typeMismatch "DateTimeUtc" v)
    | _ => .error (.typeMismatch "DateTimeUtc" v)
  | .undefinedOr s => fun v =>
    match v with
    | .undef => .ok .undef
    | _ => decode s v
  | .array s => fun v =>
    match v with
    | .arr vs => (mapMExcept (decode s) vs).map .arr
    | _ => .error (.typeMismatch "Array" v)
  | .struct fs => fun v =>
    match v with
    | .obj kvs => (decodeFields fs kvs).map .obj
    | _ => .error (.typeMismatch "Struct" v)
  | .file => fun v =>
    match v with
    | .file n c b => .ok (.file n c b)
    | _ => .error (.typeMismatch "File" v)
termination_by structural s => s

/-- Decode the declared fields of a struct against a raw object, in
declaration order; the first failing field aborts the decode. -/
def decodeFields : Fields → List (String × Value) → Except DecodeError (List (String × Value))
  | .nil => fun _ => .ok []
  | .cons f s rest => fun kvs =>
    match lookupField f kvs with
    | none =>
      if isOptional s then (decodeFields rest kvs).map (fun tl => (f, .undef) :: tl)
      else .error (.missingField f (describe s))
    | some v =>
      match decode s v with
      | .error e => .error (.fieldError f e)
      | .ok tv => (decodeFields rest kvs).map (fun tl => (f, tv) :: tl)
termination_by structural fs => fs
end

mutual
/-- Modelled from the spec:
`encode(schema, typedValue) -> Result<RawValue, EncodingError>` (4.1).
Optional fields holding `undefined` are omitted from the encoded object, the
inverse of decoding a missing optional field to `undefined`. -/
def encode : Schema → Value → Except EncodeError Value
  | .string => fun v =>
    match v with
    | .str s => .ok (.str s)
    | _ => .error (.notConforming "String" v)
  | .nonEmptyTrimmedString => fun v =>
    match v with
    | .str s =>
      if trimString s = s ∧ s ≠ "" then .ok (.str s)
      else .error (.notConforming "NonEmptyTrimmedString" v)
    | _ => .error (.notConforming "NonEmptyTrimmedString" v)
  | .number => fun v =>
    match v with
    | .num n => .ok (.num n)
    | _ => .error (.notConforming "Number" v)
  | .numberFromString => fun v =>
    match v with
    | .num n => .ok (.str (intToString n))
    | _ => .error (.notConforming "NumberFromString" v)
  | .dateTimeUtc => fun v =>
    match v with
    | .dateTime m => .ok (.str (intToString m))
    | _ => .error (.notConforming "DateTimeUtc" v)
  | .undefinedOr s => fun v =>
    match v with
    | .undef => .ok .undef
    | _ => encode s v
  | .array s => fun v =>
    match v with
    | .arr vs => (mapMExcept (encode s) vs).map .arr
    | _ => .error (.notConforming "Array" v)
  | .struct fs => fun v =>
    match v with
    | .obj kvs => (encodeFields fs kvs).map .obj
    | _ => .error (.notConforming "Struct" v)
  | .file => fun v =>
    match v with
    | .file n c b => .ok (.file n c b)
    | _ => .error (.notConforming "File" v)
termination_by structural s => s

/-- Encode the declared fields of a struct from a typed object; fields whose
encoded value is `undefined` are omitted from the wire object. -/
def encodeFields : Fields → List (String × Value) → Except EncodeError (List (String × Value))
  | .nil => fun _ => .ok []
  | .cons f s rest => fun kvs =>
    match lookupField f kvs with
    | none => .error (.notConforming ("missing field " ++ f) .undef)
    | some v =>
      match encode s v with
      | .error e => .error e
      | .ok rv =>
        (encodeFields rest kvs).map (fun tl => if rv.isUndef then tl else (f, rv) :: tl)
termination_by structural fs => fs
end

mutual
/-- The typed domain of a schema: which typed values conform to it. -/
def conforms : Schema → Value → Bool
  | .string => fun v =>
    match v with
    | .str _ => true
    | _ => false
  | .nonEmptyTrimmedString => fun v =>
    match v with
    | .str s => trimString s == s && s != ""
    | _ => false
  | .number => fun v =>
    match v with
    | .num _ => true
    | _ => false
  | .numberFromString => fun v =>
    match v with
    | .num _ => true
    | _ => false
  | .dateTimeUtc => fun v =>
    match v with
    | .dateTime _ => true
    | _ => false
  | .undefinedOr s => fun v =>
    match v with
    | .undef => true
    | _ => conforms s v
  | .array s => fun v =>
    match v with
    | .arr vs => allList (conforms s) vs
    | _ => false
  | .struct fs => fun v =>
    match v with
    | .obj kvs => conformsFields fs kvs
    | _ => false
  | .file => fun v =>
    match v with
    | .file _ _ _ => true
    | _ => false
termination_by structural s => s

/-- A typed object conforms to a struct schema when it has exactly the
declared fields, in declaration order, with conforming values. -/
def conformsFields : Fields → List (String × Value) → Bool
  | .nil => fun kvs => kvs.isEmpty
  | .cons f s rest => fun kvs =>
    match kvs with
    | [] => false
    | (g, v) :: tl => g == f && conforms s v && conformsFields rest tl
termination_by structural fs => fs
end

/-- Declared field names of a struct schema, in order. -/
def Fields.names : Fields → List String
  | .nil => []
  | .cons f _ rest => f :: Fields.names rest

def nodupNames : List String → Bool
  | [] => true
  | f :: rest => !rest.contains f && nodupNames rest

mutual
/-- Well-formed schemas: every struct's field names are distinct. -/
def wfSchema : Schema → Bool
  | .string => true
  | .nonEmptyTrimmedString => true
  | .number => true
  | .numberFromString => true
  | .dateTimeUtc => true
  | .undefinedOr s => wfSchema s
  | .array s => wfSchema s
  | .struct fs => nodupNames (Fields.names fs) && wfFields fs
  | .file => true
termination_by structural s => s

def wfFields : Fields → Bool
  | .nil => true
  | .cons _ s rest => wfSchema s && wfFields rest
termination_by structural fs => fs
end
/-! ## Endpoint descriptors, path templates and dispatch (spec 4.2, 4.4) -/

/-- HTTP methods used by the example (`get`, `post`, `del`, `patch`). -/
inductive Method where
  | get
  | post
  | del
  | patch
deriving Repr, DecidableEq

/-- One segment of a path template: a literal, a `:name` parameter, or the
trailing catch-all `*`. -/
inductive Seg where
  | lit : String → Seg
  | param : String → Seg
  | star : Seg
deriving Repr, DecidableEq

/-- Join path segments back into a single path string. -/
def joinSegs : List String → String
  | [] => ""
  | [s] => s
  | s :: rest => s ++ "/" ++ joinSegs rest

/-- Modelled from the spec (4.2): "literal segments match exactly; `:name`
segments bind to `pathSchema.name`; a trailing catch-all segment (`*`) binds
remaining path to a single string field.  Matching is case-sensitive,
segment-count-aware."  Returns the raw path-parameter bindings on a match. -/
def matchPath : List Seg → List String → Option (List (String × Value))
  | [.star], rest => some [("*", .str (joinSegs rest))]
  | [], [] => some []
  | .lit s :: t, seg :: rest => if seg = s then matchPath t rest else none
  | .param n :: t, seg :: rest => (matchPath t rest).map (fun b => (n, .str seg) :: b)
  | _, _ => none

/-- How a payload or response body is encoded on the wire; carried as
declarative metadata from `HttpApiSchema.withEncoding` /
`HttpApiSchema.Multipart`. -/
inductive EncodingKind where
  | json
  | urlParams
  | multipart
  | text
deriving Repr, DecidableEq

/-- An endpoint descriptor (spec 3): id, method, path template and the
declared schemas for path, URL params, headers, payload and success, with
the success status code. -/
structure Endpoint where
  id : String
  method : Method
  template : List Seg
  pathSchema : Option Schema := none
  urlParamsSchema : Option Schema := none
  headersSchema : Option Schema := none
  payloadSchema : Option Schema := none
  payloadEncoding : EncodingKind := .json
  success : Option Schema := none
  successStatus : Nat := 200
  successContentType : String := "application/json"

/-- An inbound request: method, path split into segments, raw URL
parameters, raw headers and raw payload. -/
structure Request where
  method : Method
  path : List String
  urlParams : List (String × Value) := []
  headers : List (String × Value) := []
  payload : Value := .undef
deriving Repr

/-- The typed values handed to a handler after validation. -/
structure DecodedInput where
  path : Value := .undef
  urlParams : Value := .undef
  headers : Value := .undef
  payload : Value := .undef
deriving Repr

/-- A handler consumes the decoded, typed inputs and returns a typed
response value. -/
abbrev Handler := DecodedInput → Value

/-- The handler table: endpoint id to handler (spec 3 `HandlerTable`). -/
abbrev HandlerTable := List (String × Handler)

def lookupHandler (i : String) : HandlerTable → Option Handler
  | [] => none
  | (g, h) :: rest => if g = i then some h else lookupHandler i rest

/-- Decode one request slot against the endpoint's declared schema for it; a
slot with no declared schema decodes to `undefined`. -/
def decodeSlot : Option Schema → Value → Except DecodeError Value
  | none, _ => .ok .undef
  | some s, raw => decode s raw

/-- Modelled from the spec (4.4 step 2): "Decode path, query, header,
payload against the matched endpoint's schemas; any decode failure
short-circuits". -/
def decodeRequest (ep : Endpoint) (bindings : List (String × Value))
    (req : Request) : Except DecodeError DecodedInput :=
  match decodeSlot ep.pathSchema (.obj bindings) with
  | .error e => .error e
  | .ok p =>
    match decodeSlot ep.urlParamsSchema (.obj req.urlParams) with
    | .error e => .error e
    | .ok u =>
      match decodeSlot ep.headersSchema (.obj req.headers) with
      | .error e => .error e
      | .ok h =>
        match decodeSlot ep.payloadSchema req.payload with
        | .error e => .error e
        | .ok pl => .ok { path := p, urlParams := u, headers := h, payload := pl }

/-- Modelled from the spec (4.4 step 1): "Match inbound method + path
against the ordered endpoint list ... first structural match wins". -/
def findRoute (eps : List Endpoint) (m : Method) (path : List String) :
    Option (Endpoint × List (String × Value)) :=
  match eps with
  | [] => none
  | ep :: rest =>
    if ep.method = m then
      match matchPath ep.template path with
      | some b => some (ep, b)
      | none => findRoute rest m path
    else findRoute rest m path

/-- The outcome of dispatching one request (spec 4.4, 7). -/
inductive Outcome where
  | noRouteFound
  | validationFailed : DecodeError → Outcome
  | missingHandler : String → Outcome
  | encodingFault : Outcome
  | success : Nat → Value → Outcome
deriving Repr

/-- Dispatch once an endpoint has been matched (spec 4.4 steps 2-4):
decode the request, invoke the registered handler on the typed inputs, and
encode its result with the endpoint's declared success status.  A decode
failure produces `validationFailed` without invoking the handler; an
endpoint with no declared success schema responds with an empty body. -/
def serveMatched (ep : Endpoint) (b : List (String × Value)) (hs : HandlerTable)
    (req : Request) : Outcome :=
  match decodeRequest ep b req with
  | .error e => .validationFailed e
  | .ok input =>
    match lookupHandler ep.id hs with
    | none => .missingHandler ep.id
    | some h =>
      match ep.success with
      | none => .success ep.successStatus .undef
      | some s =>
        match encode s (h input) with
        | .ok raw => .success ep.successStatus raw
        | .error _ => .encodingFault

/-- Modelled from the spec (4.4): per-request dispatch — route the request,
then decode, invoke and respond.  Unmatched requests produce
`noRouteFound`. -/
def serve (eps : List Endpoint) (hs : HandlerTable) (req : Request) : Outcome :=
  match findRoute eps req.method req.path with
  | none => .noRouteFound
  | some (ep, b) => serveMatched ep b hs req

/-! ## Group and API registries (spec 4.3)

Modelled from the spec: "`make(name)` creates an empty registry;
`add(descriptor)` returns a new registry with the descriptor appended,
failing (construction-time error) if the id/name collides with an existing
entry." -/

/-- Build-time duplicate-id error (spec 7 `DuplicateIdError`). -/
structure DuplicateIdError where
  dup : String
deriving Repr, DecidableEq

/-- A named group of endpoint descriptors (spec 3 `GroupDescriptor`). -/
structure Group where
  name : String
  endpoints : List Endpoint

/-- `HttpApiGroup.make`: an empty registry with a name. -/
def Group.make (name : String) : Group := { name := name, endpoints := [] }

/-- `HttpApiGroup.add` with the spec's construction-time duplicate check. -/
def Group.add (g : Group) (ep : Endpoint) : Except DuplicateIdError Group :=
  if g.endpoints.any (fun e => e.id = ep.id) then .error ⟨ep.id⟩
  else .ok { name := g.name, endpoints := g.endpoints ++ [ep] }

/-- A top-level API: named groups (spec 3 `ApiDescriptor`). -/
structure Api where
  name : String
  groups : List Group

/-- `HttpApi.make`. -/
def Api.make (name : String) : Api := { name := name, groups := [] }

/-- `HttpApi.add` with the spec's construction-time duplicate-name check. -/
def Api.add (a : Api) (g : Group) : Except DuplicateIdError Api :=
  if a.groups.any (fun h => h.name = g.name) then .error ⟨g.name⟩
  else .ok { name := a.name, groups := a.groups ++ [g] }

/-! ## Building the dispatch table (spec 4.4 `build()`)

Modelled from the spec: "`build()` fails with an IncompleteApiError listing
every endpoint lacking a handler if any are missing, and otherwise returns a
sealed, request-ready dispatch table." -/

/-- Build-time completeness error listing the unregistered endpoint ids. -/
structure IncompleteApiError where
  missing : List String
deriving Repr, DecidableEq

/-- Ids of the declared endpoints that have no registered handler. -/
def missingIds (eps : List Endpoint) (hs : HandlerTable) : List String :=
  (eps.filter (fun ep => (lookupHandler ep.id hs).isNone)).map (fun ep => ep.id)

/-- `build()`: completeness-check the handler table against the declared
endpoints, sealing it on success. -/
def build (eps : List Endpoint) (hs : HandlerTable) :
    Except IncompleteApiError HandlerTable :=
  if missingIds eps hs = [] then .ok hs else .error ⟨missingIds eps hs⟩

/-! ## The `Greetings` group declared in `src/src/index.ts` -/

/-- `const User = Schema.Struct({name, id, createdAt})` (src lines 27-31). -/
def User : Schema :=
  .struct (.cons "name" .nonEmptyTrimmedString
    (.cons "id" .number
      (.cons "createdAt" .dateTimeUtc .nil)))

/-- `GET /` with a headers schema (src lines 43-58). -/
def helloWorldEndpoint : Endpoint where
  id := "hello-world"
  method := .get
  template := []
  headersSchema := some (.struct (.cons "X-API-Key" .string
    (.cons "X-Request-ID" .string .nil)))
  success := some .string

/-- The `users` URL-parameter schema: `page`, `sort`, `friend`
(src lines 62-73). -/
def usersUrlParams : Schema :=
  .struct (.cons "page" .numberFromString
    (.cons "sort" (.undefinedOr .string)
      (.cons "friend" (.undefinedOr (.array .string)) .nil)))

/-- `GET /users` with URL params and a 206 success status
(src lines 59-80). -/
def usersEndpoint : Endpoint where
  id := "users"
  method := .get
  template := [.lit "users"]
  urlParamsSchema := some usersUrlParams
  success := some (.array User)
  successStatus := 206

/-- `GET /param/optionOne/:id` with `id : NumberFromString`
(src lines 81-89). -/
def passParamOptionOneEndpoint : Endpoint where
  id := "pass-param-option-one"
  method := .get
  template := [.lit "param", .lit "optionOne", .param "id"]
  pathSchema := some (.struct (.cons "id" .numberFromString .nil))
  success := some .string

/-- `GET /params/optionTwo/:id` via `HttpApiSchema.param`
(src lines 38, 90-92). -/
def passParamOptionTwoEndpoint : Endpoint where
  id := "pass-param-option-two"
  method := .get
  template := [.lit "params", .lit "optionTwo", .param "id"]
  pathSchema := some (.struct (.cons "id" .numberFromString .nil))
  success := some .string

/-- `POST /post` with a URL-encoded `{name : String}` payload
(src lines 94-106). -/
def postEndpoint : Endpoint where
  id := "post"
  method := .post
  template := [.lit "post"]
  payloadSchema := some (.struct (.cons "name" .string .nil))
  payloadEncoding := .urlParams
  success := some .string

/-- `DELETE /delete/:id` with a `text/csv` success encoding
(src lines 108-123). -/
def deleteEndpoint : Endpoint where
  id := "delete"
  method := .del
  template := [.lit "delete", .param "id"]
  pathSchema := some (.struct (.cons "id" .numberFromString .nil))
  success := some .string
  successContentType := "text/csv"

/-- `PATCH /patch/:id`, no success schema declared (src lines 125-130). -/
def patchUpdateEndpoint : Endpoint where
  id := "patch/update"
  method := .patch
  template := [.lit "patch", .param "id"]
  pathSchema := some (.struct (.cons "id" .numberFromString .nil))

/-- `GET /*`, the trailing catch-all route (src lines 131-133). -/
def catchAllEndpoint : Endpoint where
  id := "catchAll"
  method := .get
  template := [.star]
  success := some .string

/-- `POST /upload` with a multipart `{files: Multipart.FilesSchema}`
payload (src lines 134-150). -/
def uploadEndpoint : Endpoint where
  id := "upload"
  method := .post
  template := [.lit "upload"]
  payloadSchema := some (.struct (.cons "files" (.array .file) .nil))
  payloadEncoding := .multipart
  success := some .string

/-- The ordered endpoint list of the `Greetings` group (src lines 42-151). -/
def greetingsEndpoints : List Endpoint :=
  [helloWorldEndpoint, usersEndpoint, passParamOptionOneEndpoint,
   passParamOptionTwoEndpoint, postEndpoint, deleteEndpoint,
   patchUpdateEndpoint, catchAllEndpoint, uploadEndpoint]

/-- The `Greetings` group value. -/
def greetingsGroup : Group := { name := "Greetings", endpoints := greetingsEndpoints }

/-- `class Greetings extends HttpApiGroup.make('Greetings').add(...)...`:
the chain of nine checked `add`s from the empty registry (src lines 42-151). -/
def greetingsBuilt : Except DuplicateIdError Group :=
  (Group.make "Greetings").add helloWorldEndpoint >>=
    (Group.add · usersEndpoint) >>=
    (Group.add · passParamOptionOneEndpoint) >>=
    (Group.add · passParamOptionTwoEndpoint) >>=
    (Group.add · postEndpoint) >>=
    (Group.add · deleteEndpoint) >>=
    (Group.add · patchUpdateEndpoint) >>=
    (Group.add · catchAllEndpoint) >>=
    (Group.add · uploadEndpoint)

/-- `const MyApi = HttpApi.make("MyApi").add(Greetings)` (src lines 153-154). -/
def myApiBuilt : Except DuplicateIdError Api :=
  (Api.make "MyApi").add greetingsGroup

/-! ## The `GreetingsLive` handlers (src lines 163-206)

`now` is obtained once at process start (`const now = await
Effect.runPromise(DateTime.now)`), so the handler table is parameterized by
that single timestamp. -/

/-- The handler table registered by `HttpApiBuilder.group(MyApi, "Greetings",
...)`: one constant handler per endpoint id, transcribed from the source. -/
def greetingsHandlers (now : Int) : HandlerTable :=
  [("hello-world", fun _ => .str "Hello World"),
   ("users", fun _ => .arr [.obj [("name", .str "James"), ("id", .num 123),
     ("createdAt", .dateTime now)]]),
   ("pass-param-option-one", fun _ => .str "Passing params Option one"),
   ("pass-param-option-two", fun _ => .str "Passing params Option two"),
   ("post", fun _ => .str "Post"),
   ("delete", fun _ => .str "Del"),
   ("patch/update", fun _ => .str "Patch"),
   ("catchAll", fun _ => .str "Catch All"),
   ("upload", fun _ => .str "Uploaded")]
/-- The declared fields of a struct schema as an association list. -/
def Fields.toList : Fields → List (String × Schema)
  | .nil => []
  | .cons f s rest => (f, s) :: Fields.toList rest

/-- All schemas an endpoint declares: path, URL params, headers, payload
and success. -/
def endpointSchemas (ep : Endpoint) : List Schema :=
  ep.pathSchema.toList ++ ep.urlParamsSchema.toList ++ ep.headersSchema.toList ++
    ep.payloadSchema.toList ++ ep.success.toList

/-! ## Correctness of the decimal renderer and parser -/

theorem toDigitsRev_eq_digits : ∀ fuel n, n ≤ fuel → toDigitsRev fuel n = Nat.digits 10 n := by
  intro fuel
  induction fuel with
  | zero =>
    intro n hn
    have h0 : n = 0 := by omega
    subst h0
    simp [toDigitsRev]
  | succ fuel ih =>
    intro n hn
    by_cases h0 : n = 0
    · subst h0; simp [toDigitsRev]
    · rw [toDigitsRev, if_neg h0, Nat.digits_def' (b := 10) (by norm_num) (Nat.pos_of_ne_zero h0),
        ih (n / 10) (by omega)]

theorem toDigitsRev_eq_digits_self (n : Nat) : toDigitsRev n n = Nat.digits 10 n :=
  toDigitsRev_eq_digits n n le_rfl

theorem fromDigitsRev_eq_ofDigits : ∀ ds, fromDigitsRev ds = Nat.ofDigits 10 ds := by
  intro ds
  induction ds with
  | nil => simp [fromDigitsRev, Nat.ofDigits_nil]
  | cons d tl ih => simp [fromDigitsRev, Nat.ofDigits_cons, ih]

theorem charVal_digitChar : ∀ d, d < 10 → charVal (digitChar d) = d := by decide

theorem isDigitChar_digitChar : ∀ d, d < 10 → isDigitChar (digitChar d) = true := by decide

theorem map_charVal_digitChar : ∀ l : List Nat, (∀ d ∈ l, d < 10) →
    List.map (charVal ∘ digitChar) l = l := by
  intro l hl
  induction l with
  | nil => rfl
  | cons d tl ih =>
    have hd : charVal (digitChar d) = d := charVal_digitChar d (hl d (by simp))
    simp only [List.map_cons, Function.comp_apply, hd]
    rw [ih (fun x hx => hl x (by simp [hx]))]

theorem natToString_data_digits (c : Char) (hc : c ∈ (natToString n).data) :
    isDigitChar c = true := by
  by_cases h0 : n = 0
  · subst h0
    rw [show (natToString 0).data = ['0'] from rfl] at hc
    simp only [List.mem_singleton] at hc
    subst hc
    decide
  · simp only [natToString, if_neg h0, toDigitsRev_eq_digits_self] at hc
    rw [List.mem_reverse, List.mem_map] at hc
    obtain ⟨d, hd, rfl⟩ := hc
    exact isDigitChar_digitChar d (Nat.digits_lt_base (by norm_num) hd)

theorem natToString_data_ne_nil (n : Nat) : (natToString n).data ≠ [] := by
  by_cases h0 : n = 0
  · subst h0; simp [natToString]
  · simp only [natToString, if_neg h0, toDigitsRev_eq_digits_self]
    simp [Nat.digits_ne_nil_iff_ne_zero.mpr h0]

theorem parseNatList_natToString (n : Nat) : parseNatList (natToString n).data = some n := by
  by_cases h0 : n = 0
  · subst h0; decide
  · simp only [natToString, if_neg h0, toDigitsRev_eq_digits_self]
    rw [parseNatList,
      if_neg (by simpa using Nat.digits_ne_nil_iff_ne_zero.mpr h0),
      if_pos]
    · rw [List.map_reverse, List.reverse_reverse, List.map_map,
        map_charVal_digitChar _ (fun d hd => Nat.digits_lt_base (by norm_num) hd),
        fromDigitsRev_eq_ofDigits, Nat.ofDigits_digits]
    · rw [List.all_eq_true]
      intro c hc
      rw [List.mem_reverse, List.mem_map] at hc
      obtain ⟨d, hd, rfl⟩ := hc
      exact isDigitChar_digitChar d (Nat.digits_lt_base (by norm_num) hd)

theorem parseNat_natToString (n : Nat) : parseNat (natToString n) = some n :=
  parseNatList_natToString n

theorem natToString_head_not_minus (n : Nat) :
    (natToString n).data.head? ≠ some '-' := by
  intro h
  rcases hd : (natToString n).data with _ | ⟨c, rest⟩
  · exact natToString_data_ne_nil n hd
  · rw [hd] at h
    simp only [List.head?_cons, Option.some.injEq] at h
    subst h
    have := natToString_data_digits (n := n) '-' (by rw [hd]; exact List.mem_cons_self _ _)
    simp [isDigitChar] at this

/-- The decimal integer renderer and parser are mutually inverse. -/
theorem parseInt_intToString (i : Int) : parseInt (intToString i) = some i := by
  by_cases hneg : i < 0
  · rw [intToString, if_pos hneg, parseInt,
      if_pos (show (String.mk ('-' :: (natToString i.natAbs).data)).data.head? =
        some '-' from rfl)]
    rw [show (String.mk ('-' :: (natToString i.natAbs).data)).data.tail =
      (natToString i.natAbs).data from rfl]
    rw [parseNatList_natToString]
    show some (-(i.natAbs : Int)) = some i
    rw [Int.ofNat_natAbs_of_nonpos (le_of_lt hneg), neg_neg]
  · rw [intToString, if_neg hneg, parseInt,
      if_neg (natToString_head_not_minus i.toNat), parseNatList_natToString]
    show some (Int.ofNat i.toNat) = some i
    rw [Int.ofNat_eq_natCast, Int.toNat_of_nonneg (not_lt.mp hneg)]
/-! ## Definitional unfolding equations for the field codecs -/

theorem conformsFields_cons_cons (f : String) (s : Schema) (rest : Fields)
    (g : String) (v : Value) (tl : List (String × Value)) :
    conformsFields (.cons f s rest) ((g, v) :: tl) =
      (g == f && conforms s v && conformsFields rest tl) := rfl

theorem encodeFields_cons_eq (f : String) (s : Schema) (rest : Fields)
    (kvs : List (String × Value)) :
    encodeFields (.cons f s rest) kvs =
      match lookupField f kvs with
      | none => .error (.notConforming ("missing field " ++ f) .undef)
      | some v =>
        match encode s v with
        | .error e => .error e
        | .ok rv =>
          (encodeFields rest kvs).map
            (fun tl => if rv.isUndef then tl else (f, rv) :: tl) := rfl

theorem decodeFields_cons_eq (f : String) (s : Schema) (rest : Fields)
    (kvs : List (String × Value)) :
    decodeFields (.cons f s rest) kvs =
      match lookupField f kvs with
      | none =>
        if isOptional s then (decodeFields rest kvs).map (fun tl => (f, .undef) :: tl)
        else .error (.missingField f (describe s))
      | some v =>
        match decode s v with
        | .error e => .error (.fieldError f e)
        | .ok tv => (decodeFields rest kvs).map (fun tl => (f, tv) :: tl) := rfl

/-! ## Helper lemmas for the round-trip law -/

theorem Value.isUndef_false_iff (v : Value) : v.isUndef = false ↔ v ≠ .undef := by
  cases v <;> simp [Value.isUndef]

theorem conforms_undef_optional (s : Schema) (h : conforms s .undef = true) :
    isOptional s = true := by
  cases s <;> simp_all [conforms, isOptional]

theorem conforms_undefinedOr_not_undef (s : Schema) (v : Value)
    (hv : v ≠ .undef) : conforms (.undefinedOr s) v = conforms s v := by
  cases v <;> simp_all [conforms]

theorem encode_undefinedOr_not_undef (s : Schema) (v : Value)
    (hv : v ≠ .undef) : encode (.undefinedOr s) v = encode s v := by
  cases v <;> simp_all [encode]

theorem decode_undefinedOr_not_undef (s : Schema) (v : Value)
    (hv : v ≠ .undef) : decode (.undefinedOr s) v = decode s v := by
  cases v <;> simp_all [decode]

theorem allList_mem (p : α → Bool) (l : List α) (h : allList p l = true) :
    ∀ x ∈ l, p x = true := by
  induction l with
  | nil => simp
  | cons a tl ih =>
    simp only [allList, Bool.and_eq_true] at h
    intro x hx
    rcases List.mem_cons.mp hx with hx | hx
    · exact hx ▸ h.1
    · exact ih h.2 x hx

theorem lookupField_eq_none (f : String) (kvs : List (String × Value))
    (h : f ∉ kvs.map Prod.fst) : lookupField f kvs = none := by
  induction kvs with
  | nil => rfl
  | cons p tl ih =>
    obtain ⟨g, v⟩ := p
    simp only [List.map_cons, List.mem_cons, not_or] at h
    rw [lookupField, if_neg (fun hgf => h.1 hgf.symm)]
    exact ih h.2

theorem mapMExcept_roundtrip (enc : Value → Except EncodeError Value)
    (dec : Value → Except DecodeError Value) (vs : List Value)
    (h : ∀ v ∈ vs, ∃ rv, enc v = .ok rv ∧ dec rv = .ok v) :
    ∃ rvs, mapMExcept enc vs = .ok rvs ∧ mapMExcept dec rvs = .ok vs := by
  induction vs with
  | nil => exact ⟨[], rfl, rfl⟩
  | cons v tl ih =>
    obtain ⟨rv, he, hd⟩ := h v (by simp)
    obtain ⟨rtl, hetl, hdtl⟩ := ih (fun x hx => h x (by simp [hx]))
    refine ⟨rv :: rtl, ?_, ?_⟩
    · simp only [mapMExcept, he, hetl]
      rfl
    · simp only [mapMExcept, hd, hdtl]
      rfl
theorem exceptMap_ok (f : α → β) (a : α) :
    (Except.ok a : Except ε α).map f = .ok (f a) := rfl

theorem encodeFields_cons_none (f : String) (s : Schema) (rest : Fields)
    (kvs : List (String × Value)) (h : lookupField f kvs = none) :
    encodeFields (.cons f s rest) kvs =
      .error (.notConforming ("missing field " ++ f) .undef) := by
  rw [encodeFields_cons_eq, h]

theorem encodeFields_cons_some_err (f : String) (s : Schema) (rest : Fields)
    (kvs : List (String × Value)) (v : Value) (e : EncodeError)
    (h1 : lookupField f kvs = some v) (h2 : encode s v = .error e) :
    encodeFields (.cons f s rest) kvs = .error e := by
  rw [encodeFields_cons_eq, h1]
  show (match encode s v with
    | .error e => (.error e : Except EncodeError (List (String × Value)))
    | .ok rv => (encodeFields rest kvs).map
        (fun tl => if rv.isUndef then tl else (f, rv) :: tl)) = .error e
  rw [h2]

theorem encodeFields_cons_some_ok (f : String) (s : Schema) (rest : Fields)
    (kvs : List (String × Value)) (v rv : Value)
    (h1 : lookupField f kvs = some v) (h2 : encode s v = .ok rv) :
    encodeFields (.cons f s rest) kvs =
      (encodeFields rest kvs).map
        (fun tl => if rv.isUndef then tl else (f, rv) :: tl) := by
  rw [encodeFields_cons_eq, h1]
  show (match encode s v with
    | .error e => (.error e : Except EncodeError (List (String × Value)))
    | .ok rv => (encodeFields rest kvs).map
        (fun tl => if rv.isUndef then tl else (f, rv) :: tl)) = _
  rw [h2]

theorem decodeFields_cons_none_opt (f : String) (s : Schema) (rest : Fields)
    (kvs : List (String × Value)) (h1 : lookupField f kvs = none)
    (h2 : isOptional s = true) :
    decodeFields (.cons f s rest) kvs =
      (decodeFields rest kvs).map (fun tl => (f, .undef) :: tl) := by
  rw [decodeFields_cons_eq, h1]
  show (if isOptional s then (decodeFields rest kvs).map (fun tl => (f, .undef) :: tl)
    else .error (.missingField f (describe s))) = _
  rw [if_pos h2]

theorem decodeFields_cons_none_req (f : String) (s : Schema) (rest : Fields)
    (kvs : List (String × Value)) (h1 : lookupField f kvs = none)
    (h2 : isOptional s = false) :
    decodeFields (.cons f s rest) kvs = .error (.missingField f (describe s)) := by
  rw [decodeFields_cons_eq, h1]
  show (if isOptional s then (decodeFields rest kvs).map (fun tl => (f, .undef) :: tl)
    else .error (.missingField f (describe s))) = _
  rw [if_neg (by rw [h2]; exact Bool.false_ne_true)]

theorem decodeFields_cons_some_err (f : String) (s : Schema) (rest : Fields)
    (kvs : List (String × Value)) (v : Value) (e : DecodeError)
    (h1 : lookupField f kvs = some v) (h2 : decode s v = .error e) :
    decodeFields (.cons f s rest) kvs = .error (.fieldError f e) := by
  rw [decodeFields_cons_eq, h1]
  show (match decode s v with
    | .error e => (.error (.fieldError f e) : Except DecodeError (List (String × Value)))
    | .ok tv => (decodeFields rest kvs).map (fun tl => (f, tv) :: tl)) = _
  rw [h2]

theorem decodeFields_cons_some_ok (f : String) (s : Schema) (rest : Fields)
    (kvs : List (String × Value)) (v tv : Value)
    (h1 : lookupField f kvs = some v) (h2 : decode s v = .ok tv) :
    decodeFields (.cons f s rest) kvs =
      (decodeFields rest kvs).map (fun tl => (f, tv) :: tl) := by
  rw [decodeFields_cons_eq, h1]
  show (match decode s v with
    | .error e => (.error (.fieldError f e) : Except DecodeError (List (String × Value)))
    | .ok tv => (decodeFields rest kvs).map (fun tl => (f, tv) :: tl)) = _
  rw [h2]

theorem encodeFields_cons_extra (fs : Fields) (f : String)
    (hmem : f ∉ Fields.names fs) (rv : Value) (kvs : List (String × Value)) :
    encodeFields fs ((f, rv) :: kvs) = encodeFields fs kvs := by
  cases fs with
  | nil => rfl
  | cons g s rest =>
    simp only [Fields.names, List.mem_cons, not_or] at hmem
    have hshift : lookupField g ((f, rv) :: kvs) = lookupField g kvs := by
      rw [lookupField, if_neg hmem.1]
    cases hl : lookupField g kvs with
    | none =>
      rw [encodeFields_cons_none g s rest _ (hshift.trans hl),
        encodeFields_cons_none g s rest _ hl]
    | some v =>
      cases he : encode s v with
      | error e =>
        rw [encodeFields_cons_some_err g s rest _ v e (hshift.trans hl) he,
          encodeFields_cons_some_err g s rest _ v e hl he]
      | ok rv' =>
        rw [encodeFields_cons_some_ok g s rest _ v rv' (hshift.trans hl) he,
          encodeFields_cons_some_ok g s rest _ v rv' hl he,
          encodeFields_cons_extra rest f hmem.2 rv kvs]

theorem decodeFields_cons_extra (fs : Fields) (f : String)
    (hmem : f ∉ Fields.names fs) (rv : Value) (kvs : List (String × Value)) :
    decodeFields fs ((f, rv) :: kvs) = decodeFields fs kvs := by
  cases fs with
  | nil => rfl
  | cons g s rest =>
    simp only [Fields.names, List.mem_cons, not_or] at hmem
    have hshift : lookupField g ((f, rv) :: kvs) = lookupField g kvs := by
      rw [lookupField, if_neg hmem.1]
    cases hl : lookupField g kvs with
    | none =>
      cases hopt : isOptional s with
      | true =>
        rw [decodeFields_cons_none_opt g s rest _ (hshift.trans hl) hopt,
          decodeFields_cons_none_opt g s rest _ hl hopt,
          decodeFields_cons_extra rest f hmem.2 rv kvs]
      | false =>
        rw [decodeFields_cons_none_req g s rest _ (hshift.trans hl) hopt,
          decodeFields_cons_none_req g s rest _ hl hopt]
    | some v =>
      cases hd : decode s v with
      | error e =>
        rw [decodeFields_cons_some_err g s rest _ v e (hshift.trans hl) hd,
          decodeFields_cons_some_err g s rest _ v e hl hd]
      | ok tv =>
        rw [decodeFields_cons_some_ok g s rest _ v tv (hshift.trans hl) hd,
          decodeFields_cons_some_ok g s rest _ v tv hl hd,
          decodeFields_cons_extra rest f hmem.2 rv kvs]

mutual
/-- The round-trip law (spec 8): for every well-formed schema and every
typed value conforming to it, encoding succeeds and decoding the encoded
wire value restores the original typed value. -/
theorem roundTrip (s : Schema) (v : Value) (hw : wfSchema s = true)
    (hc : conforms s v = true) :
    ∃ rv, encode s v = .ok rv ∧ decode s rv = .ok v ∧ rv.isUndef = v.isUndef := by
  cases s with
  | string =>
    cases v <;> simp_all [conforms]
    exact ⟨_, rfl, rfl, rfl⟩
  | nonEmptyTrimmedString =>
    cases v <;> simp_all [conforms]
    rename_i t
    refine ⟨.str t, ?_, ?_, rfl⟩
    · show (if trimString t = t ∧ t ≠ "" then Except.ok (Value.str t)
        else Except.error (EncodeError.notConforming "NonEmptyTrimmedString"
          (Value.str t))) = Except.ok (Value.str t)
      rw [if_pos ⟨hc.1, hc.2⟩]
    · show (if trimString t = t ∧ t ≠ "" then Except.ok (Value.str t)
        else Except.error (DecodeError.typeMismatch "NonEmptyTrimmedString"
          (Value.str t))) = Except.ok (Value.str t)
      rw [if_pos ⟨hc.1, hc.2⟩]
  | number =>
    cases v <;> simp_all [conforms]
    exact ⟨_, rfl, rfl, rfl⟩
  | numberFromString =>
    cases v <;> simp_all [conforms]
    rename_i n
    refine ⟨.str (intToString n), rfl, ?_, rfl⟩
    show (match parseInt (intToString n) with
      | some k => Except.ok (Value.num k)
      | none => Except.error (DecodeError.typeMismatch "NumberFromString"
          (Value.str (intToString n)))) = Except.ok (Value.num n)
    rw [parseInt_intToString]
  | dateTimeUtc =>
    cases v <;> simp_all [conforms]
    rename_i m
    refine ⟨.str (intToString m), rfl, ?_, rfl⟩
    show (match parseInt (intToString m) with
      | some k => Except.ok (Value.dateTime k)
      | none => Except.error (DecodeError.typeMismatch "DateTimeUtc"
          (Value.str (intToString m)))) = Except.ok (Value.dateTime m)
    rw [parseInt_intToString]
  | undefinedOr s =>
    by_cases hv : v = .undef
    · subst hv
      exact ⟨.undef, rfl, rfl, rfl⟩
    · rw [conforms_undefinedOr_not_undef s v hv] at hc
      rw [show wfSchema (.undefinedOr s) = wfSchema s from rfl] at hw
      obtain ⟨rv, he, hd, hu⟩ := roundTrip s v hw hc
      have hrv : rv ≠ .undef := by
        rw [← Value.isUndef_false_iff, hu, Value.isUndef_false_iff]
        exact hv
      refine ⟨rv, ?_, ?_, hu⟩
      · rw [encode_undefinedOr_not_undef s v hv, he]
      · rw [decode_undefinedOr_not_undef s rv hrv, hd]
  | array s =>
    cases v <;> simp_all [conforms]
    rename_i vs
    have hws : wfSchema s = true := by simpa [wfSchema] using hw
    obtain ⟨rvs, he, hd⟩ := mapMExcept_roundtrip (encode s) (decode s) vs
      (fun x hx => by
        obtain ⟨rv, h1, h2, _⟩ := roundTrip s x hws (allList_mem (conforms s) vs hc x hx)
        exact ⟨rv, h1, h2⟩)
    refine ⟨.arr rvs, ?_, ?_, rfl⟩
    · show (mapMExcept (encode s) vs).map Value.arr = Except.ok (Value.arr rvs)
      rw [he, exceptMap_ok]
    · show (mapMExcept (decode s) rvs).map Value.arr = Except.ok (Value.arr vs)
      rw [hd, exceptMap_ok]
  | struct fs =>
    cases v <;> simp_all [conforms]
    rename_i kvs
    rw [show wfSchema (.struct fs) =
      (nodupNames (Fields.names fs) && wfFields fs) from rfl,
      Bool.and_eq_true] at hw
    obtain ⟨rkvs, he, hd, _⟩ := roundTripFields fs kvs hw.1 hw.2 hc
    refine ⟨.obj rkvs, ?_, ?_, rfl⟩
    · show (encodeFields fs kvs).map Value.obj = Except.ok (Value.obj rkvs)
      rw [he, exceptMap_ok]
    · show (decodeFields fs rkvs).map Value.obj = Except.ok (Value.obj kvs)
      rw [hd, exceptMap_ok]
  | file =>
    cases v <;> simp_all [conforms]
    exact ⟨_, rfl, rfl, rfl⟩
termination_by sizeOf s

/-- Round-trip for the field list of a struct schema: encoding drops the
`undefined` optionals and decoding restores them, so the declared fields
come back exactly. -/
theorem roundTripFields (fs : Fields) (kvs : List (String × Value))
    (hnd : nodupNames (Fields.names fs) = true) (hw : wfFields fs = true)
    (hc : conformsFields fs kvs = true) :
    ∃ rkvs, encodeFields fs kvs = .ok rkvs ∧ decodeFields fs rkvs = .ok kvs ∧
      ∀ g ∈ rkvs.map Prod.fst, g ∈ Fields.names fs := by
  cases fs with
  | nil =>
    have : kvs = [] := by simpa [conformsFields, List.isEmpty_iff] using hc
    subst this
    exact ⟨[], rfl, rfl, by simp⟩
  | cons f s rest =>
    cases kvs with
    | nil => simp [conformsFields] at hc
    | cons p tl =>
      obtain ⟨g, v⟩ := p
      rw [conformsFields_cons_cons] at hc
      simp only [Bool.and_eq_true, beq_iff_eq] at hc
      obtain ⟨⟨hgf, hcv⟩, hctl⟩ := hc
      subst hgf
      rw [show wfFields (.cons g s rest) = (wfSchema s && wfFields rest) from rfl,
        Bool.and_eq_true] at hw
      rw [show Fields.names (.cons g s rest) = g :: Fields.names rest from rfl,
        nodupNames, Bool.and_eq_true, Bool.not_eq_true'] at hnd
      have hgmem : g ∉ Fields.names rest := by
        intro hmem
        have hc2 := hnd.1
        simp [List.elem_iff] at hc2
        exact hc2 hmem
      obtain ⟨rv, he, hd, hu⟩ := roundTrip s v hw.1 hcv
      obtain ⟨rkvs', he', hd', hn'⟩ := roundTripFields rest tl hnd.2 hw.2 hctl
      have hlk : lookupField g ((g, v) :: tl) = some v := by
        rw [lookupField, if_pos rfl]
      by_cases hrv : rv.isUndef = true
      · have hvu : v = .undef := by
          have h2 := hu.symm.trans hrv
          by_contra hne
          rw [(Value.isUndef_false_iff v).mpr hne] at h2
          exact Bool.false_ne_true h2
        have hopt : isOptional s = true := conforms_undef_optional s (hvu ▸ hcv)
        refine ⟨rkvs', ?_, ?_, fun x hx => by simp [Fields.names, hn' x hx]⟩
        · rw [encodeFields_cons_some_ok g s rest _ v rv hlk he,
            encodeFields_cons_extra rest g hgmem v tl, he', exceptMap_ok,
            if_pos hrv]
        · have hnone : lookupField g rkvs' = none :=
            lookupField_eq_none g rkvs' (fun hmem => hgmem (hn' g hmem))
          rw [decodeFields_cons_none_opt g s rest _ hnone hopt, hd', exceptMap_ok,
            hvu]
      · rw [Bool.not_eq_true] at hrv
        refine ⟨(g, rv) :: rkvs', ?_, ?_, ?_⟩
        · rw [encodeFields_cons_some_ok g s rest _ v rv hlk he,
            encodeFields_cons_extra rest g hgmem v tl, he', exceptMap_ok,
            if_neg (by rw [hrv]; exact Bool.false_ne_true)]
        · rw [decodeFields_cons_some_ok g s rest _ rv v
            (by rw [lookupField, if_pos rfl]) hd,
            decodeFields_cons_extra rest g hgmem rv rkvs', hd', exceptMap_ok]
        · intro x hx
          simp only [List.map_cons, List.mem_cons] at hx
          rcases hx with hx | hx
          · simp [Fields.names, hx]
          · simp [Fields.names, hn' x hx]
termination_by sizeOf fs
end

/-! ## Dispatch lemmas -/

theorem findRoute_cons_eq (ep : Endpoint) (rest : List Endpoint) (m : Method)
    (path : List String) :
    findRoute (ep :: rest) m path =
      if ep.method = m then
        match matchPath ep.template path with
        | some b => some (ep, b)
        | none => findRoute rest m path
      else findRoute rest m path := rfl

theorem findRoute_cons_match (ep : Endpoint) (rest : List Endpoint) (m : Method)
    (path : List String) (b : List (String × Value)) (hm : ep.method = m)
    (h : matchPath ep.template path = some b) :
    findRoute (ep :: rest) m path = some (ep, b) := by
  rw [findRoute_cons_eq, if_pos hm]
  show (match matchPath ep.template path with
    | some b => some (ep, b)
    | none => findRoute rest m path) = some (ep, b)
  rw [h]

theorem findRoute_cons_nomatch (ep : Endpoint) (rest : List Endpoint) (m : Method)
    (path : List String) (hm : ep.method = m)
    (h : matchPath ep.template path = none) :
    findRoute (ep :: rest) m path = findRoute rest m path := by
  rw [findRoute_cons_eq, if_pos hm]
  show (match matchPath ep.template path with
    | some b => some (ep, b)
    | none => findRoute rest m path) = findRoute rest m path
  rw [h]

theorem findRoute_cons_method (ep : Endpoint) (rest : List Endpoint) (m : Method)
    (path : List String) (hm : ¬ep.method = m) :
    findRoute (ep :: rest) m path = findRoute rest m path := by
  rw [findRoute_cons_eq, if_neg hm]

/-- If some endpoint in the list matches the method and path, the ordered
first-match search finds one. -/
theorem findRoute_isSome_of_match (eps : List Endpoint) (m : Method)
    (path : List String)
    (h : ∃ ep ∈ eps, ep.method = m ∧ (matchPath ep.template path).isSome = true) :
    (findRoute eps m path).isSome = true := by
  induction eps with
  | nil =>
    obtain ⟨ep, h0, _⟩ := h
    cases h0
  | cons e rest ih =>
    by_cases hm : e.method = m
    · cases hmp : matchPath e.template path with
      | some b => rw [findRoute_cons_match e rest m path b hm hmp]; rfl
      | none =>
        rw [findRoute_cons_nomatch e rest m path hm hmp]
        apply ih
        obtain ⟨ep, hep, hm2, hmp2⟩ := h
        rcases List.mem_cons.mp hep with rfl | hrest
        · rw [hmp] at hmp2
          cases hmp2
        · exact ⟨ep, hrest, hm2, hmp2⟩
    · rw [findRoute_cons_method e rest m path hm]
      apply ih
      obtain ⟨ep, hep, hm2, hmp2⟩ := h
      rcases List.mem_cons.mp hep with rfl | hrest
      · exact absurd hm2 hm
      · exact ⟨ep, hrest, hm2, hmp2⟩

theorem serve_of_findRoute (eps : List Endpoint) (hs : HandlerTable) (req : Request)
    (ep : Endpoint) (b : List (String × Value))
    (h : findRoute eps req.method req.path = some (ep, b)) :
    serve eps hs req = serveMatched ep b hs req := by
  unfold serve
  rw [h]

theorem serveMatched_error (ep : Endpoint) (b : List (String × Value))
    (hs : HandlerTable) (req : Request) (e : DecodeError)
    (h : decodeRequest ep b req = .error e) :
    serveMatched ep b hs req = .validationFailed e := by
  unfold serveMatched
  rw [h]

/-- A matched request never produces `noRouteFound`: the dispatch outcome of
a matched endpoint is validation failure, handler lookup failure, encoding
fault, or success. -/
theorem serveMatched_ne_noRouteFound (ep : Endpoint) (b : List (String × Value))
    (hs : HandlerTable) (req : Request) :
    serveMatched ep b hs req ≠ .noRouteFound := by
  unfold serveMatched
  repeat' split
  all_goals exact fun h => Outcome.noConfusion h

/-- Spec 4.1: a struct decode on an input whose present fields all decode
but which is missing a required field fails with a `missingField`
validation error naming a missing required field and its expected type. -/
theorem decodeFields_missing_required (fs : Fields) (kvs : List (String × Value))
    (hok : ∀ f s v, (f, s) ∈ Fields.toList fs → lookupField f kvs = some v →
      ∃ tv, decode s v = .ok tv)
    (hmiss : ∃ f s, (f, s) ∈ Fields.toList fs ∧ isOptional s = false ∧
      lookupField f kvs = none) :
    ∃ f s, (f, s) ∈ Fields.toList fs ∧ isOptional s = false ∧
      lookupField f kvs = none ∧
      decodeFields fs kvs = .error (.missingField f (describe s)) := by
  cases fs with
  | nil =>
    obtain ⟨f, t, hmem, _, _⟩ := hmiss
    simp [Fields.toList] at hmem
  | cons g t rest =>
    cases hl : lookupField g kvs with
    | none =>
      cases hopt : isOptional t with
      | false =>
        exact ⟨g, t, by simp [Fields.toList], hopt, hl,
          decodeFields_cons_none_req g t rest kvs hl hopt⟩
      | true =>
        obtain ⟨f, u, hmem, hreq, hnone⟩ := hmiss
        have hmem' : (f, u) ∈ Fields.toList rest := by
          rcases (by simpa [Fields.toList] using hmem :
              (f = g ∧ u = t) ∨ (f, u) ∈ Fields.toList rest) with ⟨rfl, rfl⟩ | hr
          · rw [hopt] at hreq
            cases hreq
          · exact hr
        obtain ⟨f2, s2, hm2, hr2, hn2, herr⟩ :=
          decodeFields_missing_required rest kvs
            (fun f s v hm hl2 => hok f s v (by simp [Fields.toList, hm]) hl2)
            ⟨f, u, hmem', hreq, hnone⟩
        refine ⟨f2, s2, by simp [Fields.toList, hm2], hr2, hn2, ?_⟩
        rw [decodeFields_cons_none_opt g t rest kvs hl hopt, herr]
        rfl
    | some v =>
      obtain ⟨tv, htv⟩ := hok g t v (by simp [Fields.toList]) hl
      obtain ⟨f, u, hmem, hreq, hnone⟩ := hmiss
      have hmem' : (f, u) ∈ Fields.toList rest := by
        rcases (by simpa [Fields.toList] using hmem :
            (f = g ∧ u = t) ∨ (f, u) ∈ Fields.toList rest) with ⟨rfl, rfl⟩ | hr
        · rw [hl] at hnone
          cases hnone
        · exact hr
      obtain ⟨f2, s2, hm2, hr2, hn2, herr⟩ :=
        decodeFields_missing_required rest kvs
          (fun f s v hm hl2 => hok f s v (by simp [Fields.toList, hm]) hl2)
          ⟨f, u, hmem', hreq, hnone⟩
      refine ⟨f2, s2, by simp [Fields.toList, hm2], hr2, hn2, ?_⟩
      rw [decodeFields_cons_some_ok g t rest kvs v tv hl htv, herr]
      rfl
termination_by sizeOf fs

/-! ## The claims -/

/-- C1: for every endpoint declared in the Greetings group and every typed
value conforming to one of that endpoint's declared schemas (path, URL
params, headers, payload, success — in particular the `User` struct and the
users endpoint's URL-parameter struct), encoding to wire form and decoding
back yields the original value. -/
theorem greetings_roundTrip_law (ep : Endpoint) (hep : ep ∈ greetingsEndpoints)
    (s : Schema) (hs : s ∈ endpointSchemas ep) (v : Value)
    (hc : conforms s v = true) :
    ∃ rv, encode s v = .ok rv ∧ decode s rv = .ok v := by
  have hall : greetingsEndpoints.all
      (fun e => (endpointSchemas e).all wfSchema) = true := by rfl
  have h1 := List.all_eq_true.mp hall ep hep
  have hw := List.all_eq_true.mp h1 s hs
  obtain ⟨rv, he, hd, _⟩ := roundTrip s v hw hc
  exact ⟨rv, he, hd⟩

/-- Witness for C1: the round trip at the users endpoint's success schema
(an array of `User`) on a concrete user value. -/
theorem greetings_roundTrip_law_witness :
    ∃ rv, encode (.array User) (.arr [.obj [("name", .str "James"),
      ("id", .num 123), ("createdAt", .dateTime 1700000000000)]]) = .ok rv ∧
    decode (.array User) rv = .ok (.arr [.obj [("name", .str "James"),
      ("id", .num 123), ("createdAt", .dateTime 1700000000000)]]) :=
  greetings_roundTrip_law usersEndpoint
    (by unfold greetingsEndpoints; exact List.Mem.tail _ (List.Mem.head _))
    (.array User)
    (by show Schema.array User ∈ [usersUrlParams, Schema.array User]
        exact List.Mem.tail _ (List.Mem.head _))
    _ (by decide)

/-- C2: `GET /users?page=1` with no `sort`/`friend` decodes the URL params
to `page = 1`, `sort = undefined`, `friend = undefined`, invokes the users
handler on those typed values, and responds with the endpoint's declared
success status 206 (overriding the default 200). -/
theorem users_page1_dispatch (now : Int) :
    findRoute greetingsEndpoints .get ["users"] = some (usersEndpoint, []) ∧
    decodeRequest usersEndpoint []
      { method := .get, path := ["users"], urlParams := [("page", .str "1")] } =
      .ok { urlParams := .obj [("page", .num 1), ("sort", .undef),
        ("friend", .undef)] } ∧
    (∃ h, lookupHandler "users" (greetingsHandlers now) = some h ∧
      h { urlParams := .obj [("page", .num 1), ("sort", .undef), ("friend", .undef)] } =
        .arr [.obj [("name", .str "James"), ("id", .num 123),
          ("createdAt", .dateTime now)]]) ∧
    usersEndpoint.successStatus = 206 ∧
    serve greetingsEndpoints (greetingsHandlers now)
      { method := .get, path := ["users"], urlParams := [("page", .str "1")] } =
      .success 206 (.arr [.obj [("name", .str "James"), ("id", .num 123),
        ("createdAt", .str (intToString now))]]) :=
  ⟨rfl, rfl, ⟨_, rfl, rfl⟩, rfl, rfl⟩

/-- C3: for the `pass-param-option-one` endpoint with template
`/param/optionOne/:id`, the concrete path `/param/optionOne/42` matches the
template, the segment `"42"` decodes via `NumberFromString` to the number
`42` bound to `id`, and the registered handler is invoked on that typed
value. -/
theorem param_option_one_dispatch (now : Int) :
    matchPath passParamOptionOneEndpoint.template ["param", "optionOne", "42"] =
      some [("id", .str "42")] ∧
    findRoute greetingsEndpoints .get ["param", "optionOne", "42"] =
      some (passParamOptionOneEndpoint, [("id", .str "42")]) ∧
    decode (.struct (.cons "id" .numberFromString .nil)) (.obj [("id", .str "42")]) =
      .ok (.obj [("id", .num 42)]) ∧
    decodeRequest passParamOptionOneEndpoint [("id", .str "42")]
      { method := .get, path := ["param", "optionOne", "42"] } =
      .ok { path := .obj [("id", .num 42)] } ∧
    (∃ h, lookupHandler "pass-param-option-one" (greetingsHandlers now) = some h ∧
      h { path := .obj [("id", .num 42)] } = .str "Passing params Option one") ∧
    serve greetingsEndpoints (greetingsHandlers now)
      { method := .get, path := ["param", "optionOne", "42"] } =
      .success 200 (.str "Passing params Option one") :=
  ⟨rfl, rfl, rfl, rfl, ⟨_, rfl, rfl⟩, rfl⟩

/-- C4 counterexample: `GET /nonexistent` does NOT produce `noRouteFound` —
it is captured by the declared catch-all endpoint `GET /*` and responds
successfully with "Catch All". -/
theorem nonexistent_counterexample :
    serve greetingsEndpoints (greetingsHandlers 0)
      { method := .get, path := ["nonexistent"] } = .success 200 (.str "Catch All") ∧
    serve greetingsEndpoints (greetingsHandlers 0)
      { method := .get, path := ["nonexistent"] } ≠ .noRouteFound :=
  ⟨rfl, fun h => Outcome.noConfusion h⟩

/-- C4 amended: a request to `/nonexistent` yields `noRouteFound` only for
methods with no matching template (e.g. `POST`); a `GET /nonexistent` is
captured by the catch-all endpoint and succeeds with "Catch All". -/
theorem nonexistent_amended :
    (∀ now : Int, serve greetingsEndpoints (greetingsHandlers now)
      { method := .get, path := ["nonexistent"] } =
      .success 200 (.str "Catch All")) ∧
    (∀ now : Int, serve greetingsEndpoints (greetingsHandlers now)
      { method := .post, path := ["nonexistent"] } = .noRouteFound) ∧
    findRoute greetingsEndpoints .post ["nonexistent"] = none :=
  ⟨fun _ => rfl, fun _ => rfl, rfl⟩

/-- C5: a struct decode on a raw input whose present fields all decode but
which is missing a required (non-`UndefinedOr`) field fails with a
`missingField` validation error naming a missing required field and its
expected type; concretely, `GET /users` with no `page` parameter yields
`ValidationFailed (missingField "page" "NumberFromString")` for every
handler table, so no handler is ever invoked. -/
theorem missing_required_field_spec :
    (∀ (fs : Fields) (kvs : List (String × Value)),
      (∀ f s v, (f, s) ∈ Fields.toList fs → lookupField f kvs = some v →
        ∃ tv, decode s v = .ok tv) →
      (∃ f s, (f, s) ∈ Fields.toList fs ∧ isOptional s = false ∧
        lookupField f kvs = none) →
      ∃ f s, (f, s) ∈ Fields.toList fs ∧ isOptional s = false ∧
        lookupField f kvs = none ∧
        decodeFields fs kvs = .error (.missingField f (describe s))) ∧
    (∀ hs : HandlerTable,
      serve greetingsEndpoints hs { method := .get, path := ["users"] } =
        .validationFailed (.missingField "page" "NumberFromString")) :=
  ⟨decodeFields_missing_required, fun _ => rfl⟩

/-- Witness for C5: the struct `{page : NumberFromString}` decoded against
the empty object, and the users endpoint dispatched with an empty handler
table. -/
theorem missing_required_field_witness :
    (∃ f s, (f, s) ∈ Fields.toList (.cons "page" Schema.numberFromString .nil) ∧
      isOptional s = false ∧ lookupField f [] = none ∧
      decodeFields (.cons "page" Schema.numberFromString .nil) [] =
        .error (.missingField f (describe s))) ∧
    serve greetingsEndpoints [] { method := .get, path := ["users"] } =
      .validationFailed (.missingField "page" "NumberFromString") :=
  ⟨missing_required_field_spec.1 _ _ (fun f s v _ h => by cases h)
      ⟨"page", .numberFromString, by simp [Fields.toList], rfl, rfl⟩,
    missing_required_field_spec.2 []⟩

/-- C6: every `POST /upload` request whose multipart body has no "files"
part fails payload validation with `missingField "files"` before any
handler runs — the outcome is the same for every handler table, so the
upload handler is never invoked on such a request. -/
theorem upload_missing_files (hs : HandlerTable) (parts : List (String × Value))
    (h : lookupField "files" parts = none) :
    serve greetingsEndpoints hs
      { method := .post, path := ["upload"], payload := .obj parts } =
      .validationFailed (.missingField "files" "Array") := by
  have hfr : findRoute greetingsEndpoints .post ["upload"] =
      some (uploadEndpoint, []) := rfl
  rw [serve_of_findRoute greetingsEndpoints hs _ uploadEndpoint [] hfr]
  apply serveMatched_error
  have hpl : decode (Schema.struct (.cons "files" (.array .file) .nil)) (.obj parts) =
      .error (.missingField "files" "Array") := by
    show (decodeFields (.cons "files" (.array .file) .nil) parts).map Value.obj =
      .error (.missingField "files" "Array")
    rw [decodeFields_cons_none_req "files" (.array .file) .nil parts h rfl]
    rfl
  simp only [decodeRequest, decodeSlot, uploadEndpoint]
  rw [hpl]

/-- Witness for C6: a `POST /upload` whose multipart body is the empty set
of parts fails validation with `missingField "files"`. -/
theorem upload_missing_files_witness :
    lookupField "files" ([] : List (String × Value)) = none ∧
    serve greetingsEndpoints []
      { method := .post, path := ["upload"], payload := .obj [] } =
      .validationFailed (.missingField "files" "Array") :=
  ⟨rfl, upload_missing_files [] [] rfl⟩

theorem mem_missingIds (eps : List Endpoint) (hs : HandlerTable) (i : String) :
    i ∈ missingIds eps hs ↔ ∃ ep ∈ eps, ep.id = i ∧ lookupHandler i hs = none := by
  unfold missingIds
  rw [List.mem_map]
  constructor
  · rintro ⟨ep, hmem, rfl⟩
    rw [List.mem_filter] at hmem
    refine ⟨ep, hmem.1, rfl, ?_⟩
    simpa [Option.isNone_iff_eq_none] using hmem.2
  · rintro ⟨ep, hmem, rfl, hnone⟩
    exact ⟨ep, List.mem_filter.mpr
      ⟨hmem, by simpa [Option.isNone_iff_eq_none] using hnone⟩, rfl⟩

/-- C7: `build` fails with an `IncompleteApiError` whose `missing` list
contains exactly the ids of the declared endpoints lacking a registered
handler whenever any are missing, and seals the table when every endpoint
has one — as holds for `GreetingsLive`, which registers a handler for each
of the nine declared endpoint ids. -/
theorem build_dispatch_table_spec :
    (∀ hs : HandlerTable,
      ((∃ ep ∈ greetingsEndpoints, lookupHandler ep.id hs = none) →
        ∃ e, build greetingsEndpoints hs = .error e ∧
          ∀ i, i ∈ e.missing ↔
            ∃ ep ∈ greetingsEndpoints, ep.id = i ∧ lookupHandler i hs = none) ∧
      ((∀ ep ∈ greetingsEndpoints, lookupHandler ep.id hs ≠ none) →
        build greetingsEndpoints hs = .ok hs)) ∧
    (∀ now : Int, build greetingsEndpoints (greetingsHandlers now) =
      .ok (greetingsHandlers now)) ∧
    greetingsEndpoints.map Endpoint.id =
      ["hello-world", "users", "pass-param-option-one", "pass-param-option-two",
       "post", "delete", "patch/update", "catchAll", "upload"] ∧
    (∀ now : Int, (greetingsHandlers now).map Prod.fst =
      greetingsEndpoints.map Endpoint.id) := by
  refine ⟨fun hs => ⟨?_, ?_⟩, fun now => rfl, rfl, fun now => rfl⟩
  · rintro ⟨ep, hmem, hnone⟩
    have hne : missingIds greetingsEndpoints hs ≠ [] :=
      List.ne_nil_of_mem ((mem_missingIds _ _ ep.id).mpr ⟨ep, hmem, rfl, hnone⟩)
    refine ⟨⟨missingIds greetingsEndpoints hs⟩, ?_, fun i => mem_missingIds _ _ i⟩
    unfold build
    rw [if_neg hne]
  · intro hall
    have hnil : missingIds greetingsEndpoints hs = [] := by
      rw [List.eq_nil_iff_forall_not_mem]
      intro i hi
      obtain ⟨ep, hmem, rfl, hnone⟩ := (mem_missingIds _ _ i).mp hi
      exact hall ep hmem hnone
    unfold build
    rw [if_pos hnil]

/-- Witness for C7: with an empty handler table, `build` fails listing
exactly the unregistered ids; with the full `GreetingsLive` table it
succeeds. -/
theorem build_dispatch_table_witness :
    (∃ e, build greetingsEndpoints [] = .error e ∧
      ∀ i, i ∈ e.missing ↔
        ∃ ep ∈ greetingsEndpoints, ep.id = i ∧ lookupHandler i [] = none) ∧
    build greetingsEndpoints (greetingsHandlers 0) = .ok (greetingsHandlers 0) :=
  ⟨(build_dispatch_table_spec.1 []).1
      ⟨helloWorldEndpoint, by unfold greetingsEndpoints; exact List.Mem.head _, rfl⟩,
    build_dispatch_table_spec.2.1 0⟩

/-- C8: adding an endpoint whose id collides with an existing one (or a
group whose name collides) fails at construction time with a duplicate-id
error, and a fresh add returns a new registry with the descriptor appended,
leaving the original registry value unchanged; the nine-step checked
construction of the Greetings group and of MyApi succeeds. -/
theorem registry_duplicate_spec :
    (∀ (g : Group) (ep : Endpoint), (∃ e ∈ g.endpoints, e.id = ep.id) →
      g.add ep = .error ⟨ep.id⟩) ∧
    (∀ (g : Group) (ep : Endpoint), (∀ e ∈ g.endpoints, e.id ≠ ep.id) →
      g.add ep = .ok { name := g.name, endpoints := g.endpoints ++ [ep] }) ∧
    (∀ (a : Api) (gr : Group), (∃ g2 ∈ a.groups, g2.name = gr.name) →
      a.add gr = .error ⟨gr.name⟩) ∧
    (∀ (a : Api) (gr : Group), (∀ g2 ∈ a.groups, g2.name ≠ gr.name) →
      a.add gr = .ok { name := a.name, groups := a.groups ++ [gr] }) ∧
    greetingsBuilt = .ok greetingsGroup ∧
    myApiBuilt = .ok { name := "MyApi", groups := [greetingsGroup] } := by
  refine ⟨?_, ?_, ?_, ?_, rfl, rfl⟩
  · rintro g ep ⟨e, he, heq⟩
    unfold Group.add
    rw [if_pos (by rw [List.any_eq_true]; exact ⟨e, he, by simp [heq]⟩)]
  · intro g ep hall
    unfold Group.add
    rw [if_neg (fun hany => by
      rw [List.any_eq_true] at hany
      obtain ⟨e, he, hp⟩ := hany
      exact hall e he (by simpa using hp))]
  · rintro a gr ⟨g2, hg, heq⟩
    unfold Api.add
    rw [if_pos (by rw [List.any_eq_true]; exact ⟨g2, hg, by simp [heq]⟩)]
  · intro a gr hall
    unfold Api.add
    rw [if_neg (fun hany => by
      rw [List.any_eq_true] at hany
      obtain ⟨g2, hg, hp⟩ := hany
      exact hall g2 hg (by simpa using hp))]

/-- Witness for C8: adding a second endpoint with id "users" to the built
Greetings group fails with a duplicate-id error. -/
theorem registry_duplicate_witness :
    Group.add greetingsGroup usersEndpoint = .error ⟨"users"⟩ :=
  registry_duplicate_spec.1 greetingsGroup usersEndpoint
    ⟨usersEndpoint,
      by unfold greetingsGroup greetingsEndpoints
         exact List.Mem.tail _ (List.Mem.head _),
      rfl⟩

/-- C9: every registered handler of `GreetingsLive` is a constant function
of its decoded input — any two validated requests to the same endpoint get
identical handler results — and in particular the users handler always
returns the single-element list `[{name: "James", id: 123, createdAt: now}]`
with `now` the timestamp fixed once at process start, regardless of the
decoded `page`, `sort` or `friend` values. -/
theorem handlers_constant_spec :
    (∀ (now : Int) (p : String × Handler), p ∈ greetingsHandlers now →
      ∀ i j : DecodedInput, p.2 i = p.2 j) ∧
    (∀ now : Int, ∃ h, lookupHandler "users" (greetingsHandlers now) = some h ∧
      ∀ i : DecodedInput, h i = .arr [.obj [("name", .str "James"),
        ("id", .num 123), ("createdAt", .dateTime now)]]) := by
  constructor
  · intro now p hp i j
    simp only [greetingsHandlers, List.mem_cons] at hp
    rcases hp with rfl | rfl | rfl | rfl | rfl | rfl | rfl | rfl | rfl | hp
    · rfl
    · rfl
    · rfl
    · rfl
    · rfl
    · rfl
    · rfl
    · rfl
    · rfl
    · exact absurd hp (List.not_mem_nil p)
  · intro now
    exact ⟨_, rfl, fun _ => rfl⟩

/-- Witness for C9: the hello-world handler applied to two different decoded
inputs returns the same value. -/
theorem handlers_constant_witness :
    (fun _ : DecodedInput => Value.str "Hello World") { path := .str "a" } =
    (fun _ : DecodedInput => Value.str "Hello World") { path := .str "b" } :=
  handlers_constant_spec.1 0 ("hello-world", fun _ => .str "Hello World")
    (by unfold greetingsHandlers; exact List.Mem.head _)
    { path := .str "a" } { path := .str "b" }

/-- C10: because the Greetings group declares the catch-all `GET /*` as a
route, dispatch never produces `noRouteFound` for any GET request — every
GET path that matches no earlier template is captured by catchAll — while
`noRouteFound` remains reachable for non-GET methods on unmatched paths
(e.g. `POST /nonexistent`). -/
theorem catchall_no_noRouteFound_for_get :
    (∀ (req : Request) (now : Int), req.method = .get →
      serve greetingsEndpoints (greetingsHandlers now) req ≠ .noRouteFound) ∧
    (∀ now : Int, serve greetingsEndpoints (greetingsHandlers now)
      { method := .post, path := ["nonexistent"] } = .noRouteFound) := by
  constructor
  · intro req now hm
    have hsome : (findRoute greetingsEndpoints req.method req.path).isSome = true := by
      apply findRoute_isSome_of_match
      refine ⟨catchAllEndpoint, ?_, by rw [hm]; rfl, ?_⟩
      · unfold greetingsEndpoints
        exact List.Mem.tail _ (List.Mem.tail _ (List.Mem.tail _ (List.Mem.tail _
          (List.Mem.tail _ (List.Mem.tail _ (List.Mem.tail _ (List.Mem.head _)))))))
      · rw [show matchPath catchAllEndpoint.template req.path =
          some [("*", .str (joinSegs req.path))] from rfl]
        rfl
    obtain ⟨⟨ep, b⟩, hfr⟩ := Option.isSome_iff_exists.mp hsome
    rw [serve_of_findRoute greetingsEndpoints (greetingsHandlers now) req ep b hfr]
    exact serveMatched_ne_noRouteFound ep b (greetingsHandlers now) req
  · intro now
    rfl

/-- Witness for C10: a GET request to an otherwise-unmatched deep path is
not `noRouteFound`. -/
theorem catchall_no_noRouteFound_witness :
    serve greetingsEndpoints (greetingsHandlers 7)
      { method := .get, path := ["zzz", "deep"] } ≠ .noRouteFound :=
  catchall_no_noRouteFound_for_get.1 { method := .get, path := ["zzz", "deep"] } 7 rfl

end EffectHttp
